import Mathlib

/-!
Shallow embedding of the Deadline Reminder System core
(`models/task.py`, `models/task_manager.py`, `models/reminder_system.py`).

Modelling conventions:
* calendar dates are `Int` ordinal days (`date` in Python; subtraction of
  dates yields the day difference, `timedelta(days = n)` is `+ n`);
* times of day are `Nat` (Python `datetime.time`; `time.min` is `0`);
* datetimes (`created_at`, `completed_at`, `datetime.now()`) are `Int`
  instants, with `timedelta(days = n)` modelled as `- n` on instants;
* the wall clock read by the code (`date.today()`, `datetime.now()`,
  `datetime.now().time()`) is threaded explicitly as a `Clock`;
* `uuid.uuid4()` is threaded explicitly as a `fresh_id : String` argument;
* a task is a record with a variant tag (`RegularTask` / `RecurringTask`);
* the store (`TaskManager.tasks`) is a `List Task`; persistence
  (`save_data` / `load_data`) and printing are out of scope.
-/

namespace DeadlineReminder

/-- The urgency labels returned by `get_urgency_level` (the Python strings
`"completed"`, `"overdue"`, `"critical"`, `"high"`, `"medium"`, `"low"`). -/
inductive Urgency where
  | completed
  | overdue
  | critical
  | high
  | medium
  | low
deriving DecidableEq

/-- Variant tag: `RegularTask` carries nothing, `RecurringTask` carries
`recurrence_type`, `recurrence_count` and `original_deadline` (the latter is
the raw `deadline_date` constructor argument, hence an `Option`). -/
inductive TaskKind where
  | regular
  | recurring (recurrence_type : String) (recurrence_count : Int)
      (original_deadline : Option Int)
deriving DecidableEq

/-- The shared field set of `BaseTask`. -/
structure Task where
  task_id : String
  title : String
  description : String
  deadline_date : Int
  deadline_time : Option Nat
  priority : Int
  category : String
  completed : Bool
  created_at : Int
  completed_at : Option Int
  kind : TaskKind
deriving DecidableEq

/-- The wall clock observed by the code: `date.today()`, the current
time-of-day `datetime.now().time()`, and the current instant
`datetime.now()`. -/
structure Clock where
  today : Int
  timeOfDay : Nat
  instant : Int
deriving DecidableEq

/-- Model of the Python `str.lower()` method, charwise (the Lean `String.toLower` is
extensionally the same but is defined by well-founded recursion and does
not reduce). -/
def pyLower (s : String) : String := String.mk (s.data.map Char.toLower)

/-- Embeds `BaseTask.__init__` (for the `RegularTask` variant): `deadline_date`
defaults to today when `None`, the category is lowercased, the task starts
pending with `completed_at = None`. -/
def mkRegularTask (fresh_id : String) (c : Clock) (title description : String)
    (deadline_date : Option Int) (deadline_time : Option Nat)
    (priority : Int) (category : String) : Task :=
  { task_id := fresh_id
    title := title
    description := description
    deadline_date := deadline_date.getD c.today
    deadline_time := deadline_time
    priority := priority
    category := pyLower category
    completed := false
    created_at := c.instant
    completed_at := none
    kind := TaskKind.regular }

/-- Embeds `RecurringTask.__init__`: runs `BaseTask.__init__` and then stores the
recurrence settings together with `original_deadline = deadline_date`, the
*raw constructor argument* (not the defaulted field). -/
def mkRecurringTask (fresh_id : String) (c : Clock) (title description : String)
    (deadline_date : Option Int) (deadline_time : Option Nat)
    (priority : Int) (category : String)
    (recurrence_type : String) (recurrence_count : Int) : Task :=
  { mkRegularTask fresh_id c title description deadline_date deadline_time
      priority category with
    kind := TaskKind.recurring recurrence_type recurrence_count deadline_date }

/-- Embeds `BaseTask.mark_completed`. -/
def Task.mark_completed (c : Clock) (t : Task) : Task :=
  { t with completed := true, completed_at := some c.instant }

/-- Embeds `BaseTask.get_days_until_deadline`: `(deadline_date - date.today()).days`. -/
def Task.get_days_until_deadline (c : Clock) (t : Task) : Int :=
  t.deadline_date - c.today

/-- Embeds `BaseTask.is_overdue`. -/
def Task.is_overdue (c : Clock) (t : Task) : Bool :=
  if t.completed then false
  else if t.deadline_date < c.today then true
  else if t.deadline_date = c.today then
    match t.deadline_time with
    | some dt => decide (dt < c.timeOfDay)
    | none => false
  else false

/-- The body of `RegularTask.get_urgency_level` (also the computation the
spec calls the "Regular-task table"): completed and overdue short-circuit,
then the priority/days_left decision tree. -/
def regularUrgency (c : Clock) (t : Task) : Urgency :=
  if t.completed then Urgency.completed
  else if t.is_overdue c then Urgency.overdue
  else
    let days_left := t.get_days_until_deadline c
    if t.priority = 1 then
      if days_left ≤ 1 then Urgency.critical
      else if days_left ≤ 3 then Urgency.high
      else Urgency.medium
    else if t.priority = 2 then
      if days_left ≤ 0 then Urgency.critical
      else if days_left ≤ 2 then Urgency.high
      else if days_left ≤ 5 then Urgency.medium
      else Urgency.low
    else
      if days_left ≤ 0 then Urgency.high
      else if days_left ≤ 3 then Urgency.medium
      else Urgency.low

/-- Embeds `BaseTask.get_urgency_level` as inherited by `RecurringTask` through
`super()`: `RecurringTask` derives directly from `BaseTask`, so `super()`
resolves to the abstract method whose body is `pass`, which returns `None`. -/
def baseUrgencyAbstract : Option Urgency := none

/-- Body of `RecurringTask.get_urgency_level`: demotes
`super().get_urgency_level()` one step; that base value is
`baseUrgencyAbstract = none`, so every branch of the comparison chain
falls through to returning the base value itself. -/
def recurringUrgency (c : Clock) (t : Task) : Option Urgency :=
  let base_urgency := baseUrgencyAbstract
  match c, t, base_urgency with
  | _, _, some Urgency.critical => some Urgency.high
  | _, _, some Urgency.high => some Urgency.medium
  | _, _, u => u

/-- Dynamic dispatch of `get_urgency_level` on the task variant.  The result
is an `Option` because the Python implementations can return `None`. -/
def Task.get_urgency_level (c : Clock) (t : Task) : Option Urgency :=
  match t.kind with
  | TaskKind.regular => some (regularUrgency c t)
  | TaskKind.recurring _ _ _ => recurringUrgency c t

/-- Modelled from the spec: the urgency table of §4.1 as a function of
`(priority, days_left)`, with priority 1 = High, 2 = Medium, 3 = Low. -/
def specUrgencyTable (priority days_left : Int) : Urgency :=
  if priority = 1 then
    if days_left ≤ 1 then Urgency.critical
    else if days_left ≤ 3 then Urgency.high
    else Urgency.medium
  else if priority = 2 then
    if days_left ≤ 0 then Urgency.critical
    else if days_left ≤ 2 then Urgency.high
    else if days_left ≤ 5 then Urgency.medium
    else Urgency.low
  else
    if days_left ≤ 0 then Urgency.high
    else if days_left ≤ 3 then Urgency.medium
    else Urgency.low

/-- Modelled from the spec: "demote by one step: critical→high,
high→medium; any other value passes through unchanged". -/
def demoteOneStep (u : Urgency) : Urgency :=
  match u with
  | Urgency.critical => Urgency.high
  | Urgency.high => Urgency.medium
  | u => u

/-- Modelled from the spec: the intended Recurring-task urgency, i.e. the
Regular-task computation on the same state, demoted one step. -/
def specRecurringUrgency (c : Clock) (t : Task) : Urgency :=
  demoteOneStep (regularUrgency c t)

/-- Embeds `RecurringTask.get_next_deadline`: `timedelta(days = count)`,
`timedelta(weeks = count)` (= 7·count days) or the 30·count-day month
approximation; an unknown recurrence type returns the deadline unchanged.
(The method only exists on the Recurring variant; the `regular` arm is the
unreachable dispatch case and returns the deadline unchanged.) -/
def Task.get_next_deadline (t : Task) : Int :=
  match t.kind with
  | TaskKind.recurring rt rc _ =>
    if rt == "daily" then t.deadline_date + rc
    else if rt == "weekly" then t.deadline_date + 7 * rc
    else if rt == "monthly" then t.deadline_date + 30 * rc
    else t.deadline_date
  | TaskKind.regular => t.deadline_date

/-- Embeds `RecurringTask.reset_for_next_cycle`. -/
def Task.reset_for_next_cycle (t : Task) : Task :=
  { t with deadline_date := t.get_next_deadline
           completed := false
           completed_at := none }

/-- The serialized record produced by `to_dict` (dates/times/instants kept
as their model values rather than iso-format strings; `recurrence` holds the
`RecurringTask` extension `(recurrence_type, recurrence_count,
original_deadline)`). -/
structure TaskRecord where
  task_id : String
  title : String
  description : String
  deadline_date : Int
  deadline_time : Option Nat
  priority : Int
  category : String
  completed : Bool
  created_at : Int
  completed_at : Option Int
  task_type : String
  recurrence : Option (String × Int × Int)
deriving DecidableEq

/-- Embeds `to_dict` with dynamic dispatch: `BaseTask.to_dict` always succeeds;
`RecurringTask.to_dict` additionally calls
`self.original_deadline.isoformat()`, which raises (`none`) when
`original_deadline` is `None`. -/
def Task.to_dict (t : Task) : Option TaskRecord :=
  let base : TaskRecord :=
    { task_id := t.task_id
      title := t.title
      description := t.description
      deadline_date := t.deadline_date
      deadline_time := t.deadline_time
      priority := t.priority
      category := t.category
      completed := t.completed
      created_at := t.created_at
      completed_at := t.completed_at
      task_type := match t.kind with
        | TaskKind.regular => "RegularTask"
        | TaskKind.recurring _ _ _ => "RecurringTask"
      recurrence := none }
  match t.kind with
  | TaskKind.regular => some base
  | TaskKind.recurring rt rc od =>
    match od with
    | none => none
    | some d => some { base with recurrence := some (rt, rc, d) }

/-! ### Task store (`TaskManager`), over a task list -/

/-- Embeds `TaskManager.get_pending_tasks`. -/
def getPendingTasks (tasks : List Task) : List Task :=
  tasks.filter (fun t => !t.completed)

/-- Embeds `TaskManager.get_completed_tasks`. -/
def getCompletedTasks (tasks : List Task) : List Task :=
  tasks.filter (fun t => t.completed)

/-- Embeds `TaskManager.get_overdue_tasks`. -/
def getOverdueTasks (c : Clock) (tasks : List Task) : List Task :=
  tasks.filter (fun t => t.is_overdue c)

/-- Embeds `TaskManager.get_task_by_id`: first task with the given id, if any. -/
def getTaskById (tasks : List Task) (id : String) : Option Task :=
  tasks.find? (fun t => t.task_id == id)

/-- The sort key of `get_all_tasks` / `get_upcoming_tasks`:
`(deadline_date, deadline_time or time.min)`, compared lexicographically
(Python tuple order, `time.min = 0`). -/
def upcomingLe (a b : Task) : Prop :=
  a.deadline_date < b.deadline_date ∨
    (a.deadline_date = b.deadline_date ∧
      a.deadline_time.getD 0 ≤ b.deadline_time.getD 0)

instance : DecidableRel upcomingLe := fun _ _ =>
  inferInstanceAs (Decidable (_ ∨ _))

instance : IsTotal Task upcomingLe :=
  ⟨by intro a b; unfold upcomingLe; omega⟩

instance : IsTrans Task upcomingLe :=
  ⟨by intro a b c; unfold upcomingLe; omega⟩

/-- Embeds `TaskManager.get_upcoming_tasks`: not-completed tasks with
`today ≤ deadline_date ≤ today + days`, sorted by the `(date, time)` key.
(the Python `sorted` builtin is a stable sort and `List.insertionSort` is stable, so
they produce the same list.) -/
def getUpcomingTasks (c : Clock) (days : Int) (tasks : List Task) : List Task :=
  List.insertionSort upcomingLe
    (tasks.filter (fun t =>
      decide (c.today ≤ t.deadline_date) &&
      decide (t.deadline_date ≤ c.today + days) && !t.completed))

/-- First-with-an-id replacement: the functional image of mutating, in
place, the object `get_task_by_id` returned. -/
def replaceFirstById (tasks : List Task) (id : String) (t' : Task) : List Task :=
  match tasks with
  | [] => []
  | x :: xs => if x.task_id == id then t' :: xs else x :: replaceFirstById xs id t'

/-- First-with-an-id removal: `self.tasks.remove(task)` on the object
`get_task_by_id` returned. -/
def eraseFirstById (tasks : List Task) (id : String) : List Task :=
  match tasks with
  | [] => []
  | x :: xs => if x.task_id == id then xs else x :: eraseFirstById xs id

/-- Embeds `TaskManager._handle_recurring_task_completion`: appends a fresh
`RecurringTask` whose deadline is `get_next_deadline()` of the completed
instance and whose other settings are copied from it. -/
def handleRecurringTaskCompletion (fresh_id : String) (c : Clock)
    (tasks : List Task) (t : Task) : List Task :=
  match t.kind with
  | TaskKind.recurring rt rc _ =>
    tasks ++ [mkRecurringTask fresh_id c t.title t.description
      (some t.get_next_deadline) t.deadline_time t.priority t.category rt rc]
  | TaskKind.regular => tasks

/-- Embeds `TaskManager.mark_completed`: find the task, mark it completed, and if
it is a `RecurringTask` append the next occurrence; `false` if the id is
absent. -/
def markCompletedStore (fresh_id : String) (c : Clock) (tasks : List Task)
    (id : String) : Bool × List Task :=
  match getTaskById tasks id with
  | none => (false, tasks)
  | some t =>
    let t' := t.mark_completed c
    let tasks1 := replaceFirstById tasks id t'
    let tasks2 := match t'.kind with
      | TaskKind.recurring _ _ _ => handleRecurringTaskCompletion fresh_id c tasks1 t'
      | TaskKind.regular => tasks1
    (true, tasks2)

/-- Embeds `TaskManager.delete_task`. -/
def deleteTaskStore (tasks : List Task) (id : String) : Bool × List Task :=
  match getTaskById tasks id with
  | none => (false, tasks)
  | some _ => (true, eraseFirstById tasks id)

/-- A single `setattr(task, key, value)` performed by
`TaskManager.update_task`, restricted to the writable field set of a task
record (an unknown key fails `hasattr` and is skipped, so it never reaches
the store). -/
inductive FieldUpdate where
  | set_title (v : String)
  | set_description (v : String)
  | set_deadline_date (v : Int)
  | set_deadline_time (v : Option Nat)
  | set_priority (v : Int)
  | set_category (v : String)
  | set_completed (v : Bool)
  | set_completed_at (v : Option Int)
deriving DecidableEq

/-- One `setattr` step of `update_task` (raw field write, no
re-normalization: e.g. `category` is *not* lowercased here). -/
def applyFieldUpdate (t : Task) (u : FieldUpdate) : Task :=
  match u with
  | FieldUpdate.set_title v => { t with title := v }
  | FieldUpdate.set_description v => { t with description := v }
  | FieldUpdate.set_deadline_date v => { t with deadline_date := v }
  | FieldUpdate.set_deadline_time v => { t with deadline_time := v }
  | FieldUpdate.set_priority v => { t with priority := v }
  | FieldUpdate.set_category v => { t with category := v }
  | FieldUpdate.set_completed v => { t with completed := v }
  | FieldUpdate.set_completed_at v => { t with completed_at := v }

/-- Embeds `TaskManager.update_task`: applies every `setattr` in order to the
found task; `false` if the id is absent. -/
def updateTaskStore (tasks : List Task) (id : String)
    (updates : List FieldUpdate) : Bool × List Task :=
  match getTaskById tasks id with
  | none => (false, tasks)
  | some t => (true, replaceFirstById tasks id (updates.foldl applyFieldUpdate t))

/-- Embeds `TaskManager.cleanup_completed_tasks`: drops completed tasks whose
`completed_at` predates `now - days_old`, returning the removed count. -/
def cleanupCompletedTasks (c : Clock) (days_old : Int)
    (tasks : List Task) : Nat × List Task :=
  let cutoff := c.instant - days_old
  let kept := tasks.filter (fun t =>
    !(t.completed && t.completed_at.any (fun ca => decide (ca < cutoff))))
  (tasks.length - kept.length, kept)

/-- Embeds `TaskManager.add_task`: constructs a Regular or Recurring task from the
arguments and appends it. -/
def addTaskStore (fresh_id : String) (c : Clock) (title description : String)
    (deadline_date : Option Int) (deadline_time : Option Nat)
    (priority : Int) (category : String) (task_type : String)
    (recurrence_type : String) (recurrence_count : Int)
    (tasks : List Task) : List Task :=
  if task_type == "recurring" then
    tasks ++ [mkRecurringTask fresh_id c title description deadline_date
      deadline_time priority category recurrence_type recurrence_count]
  else
    tasks ++ [mkRegularTask fresh_id c title description deadline_date
      deadline_time priority category]

/-- Result record of `TaskManager.get_statistics` (`by_priority` is the dict
`{1: _, 2: _, 3: _}`, `by_category` an insertion-ordered dict,
`completion_rate` a rational standing for the Python float quotient). -/
structure Stats where
  total : Nat
  completed : Nat
  pending : Nat
  overdue : Nat
  completion_rate : Rat
  by_category : List (String × Nat)
  by_priority_1 : Nat
  by_priority_2 : Nat
  by_priority_3 : Nat
deriving DecidableEq

/-- One step of the `by_category` accumulation:
`category_stats[category] = category_stats.get(category, 0) + 1` on an
insertion-ordered association list. -/
def bumpCategory (m : List (String × Nat)) (cat : String) : List (String × Nat) :=
  match m with
  | [] => [(cat, 1)]
  | (k, v) :: rest =>
    if k == cat then (k, v + 1) :: rest else (k, v) :: bumpCategory rest cat

/-- Embeds `TaskManager.get_statistics`.  The priority dict is pre-seeded with
keys 1, 2, 3 only, and `priority_stats[task.priority] += 1` raises
`KeyError` on any other priority — modelled by returning `none` in that
case. -/
def getStatistics (c : Clock) (tasks : List Task) : Option Stats :=
  if tasks.all (fun t => t.priority == 1 || t.priority == 2 || t.priority == 3) then
    some
      { total := tasks.length
        completed := (getCompletedTasks tasks).length
        pending := (getPendingTasks tasks).length
        overdue := (getOverdueTasks c tasks).length
        completion_rate :=
          if 0 < tasks.length then
            ((getCompletedTasks tasks).length : Rat) / (tasks.length : Rat) * 100
          else 0
        by_category := tasks.foldl (fun m t => bumpCategory m t.category) []
        by_priority_1 := (tasks.filter (fun t => t.priority == 1)).length
        by_priority_2 := (tasks.filter (fun t => t.priority == 2)).length
        by_priority_3 := (tasks.filter (fun t => t.priority == 3)).length }
  else none

/-! ### Reminder aggregator (`ReminderSystem`) -/

/-- The sort key of `get_urgent_reminders`: `(deadline_date, priority)`
compared lexicographically. -/
def urgentLe (a b : Task) : Prop :=
  a.deadline_date < b.deadline_date ∨
    (a.deadline_date = b.deadline_date ∧ a.priority ≤ b.priority)

instance : DecidableRel urgentLe := fun _ _ =>
  inferInstanceAs (Decidable (_ ∨ _))

instance : IsTotal Task urgentLe :=
  ⟨by intro a b; unfold urgentLe; omega⟩

instance : IsTrans Task urgentLe :=
  ⟨by intro a b c; unfold urgentLe; omega⟩

/-- The `seen_ids` de-duplication loop of `get_urgent_reminders`:
keep the first occurrence of each `task_id`. -/
def dedupById (tasks : List Task) (seen : List String) : List Task :=
  match tasks with
  | [] => []
  | t :: ts =>
    if t.task_id ∈ seen then dedupById ts seen
    else t :: dedupById ts (t.task_id :: seen)

/-- Embeds `ReminderSystem.get_urgent_reminders`: the pending tasks due today, then the
overdue tasks, de-duplicated by id (first occurrence wins) and stably
sorted by `(deadline_date, priority)`. -/
def getUrgentReminders (c : Clock) (tasks : List Task) : List Task :=
  let today_tasks := (getPendingTasks tasks).filter
    (fun t => t.deadline_date == c.today)
  let overdue_tasks := getOverdueTasks c tasks
  let urgent_tasks := today_tasks ++ overdue_tasks
  let unique_urgent := dedupById urgent_tasks []
  List.insertionSort urgentLe unique_urgent

/-- Embeds `ReminderSystem.get_upcoming_reminders` with the
`upcoming_threshold` setting passed explicitly: the upcoming tasks of the store
minus those due exactly today. -/
def getUpcomingReminders (c : Clock) (threshold : Int)
    (tasks : List Task) : List Task :=
  (getUpcomingTasks c threshold tasks).filter
    (fun t => t.deadline_date != c.today)

/-! ### Claims -/

/-- C1: for a Regular task that is not completed and not overdue,
`get_urgency_level` equals the table of the spec on
`(priority, days_left = deadline_date - today)`; a completed task yields
`completed` and an overdue one `overdue`, checked first in that order. -/
theorem urgency_table_matches_spec (c : Clock) (t : Task)
    (hk : t.kind = TaskKind.regular)
    (hp : t.priority = 1 ∨ t.priority = 2 ∨ t.priority = 3) :
    (t.completed = true → t.get_urgency_level c = some Urgency.completed)
  ∧ (t.completed = false → t.is_overdue c = true →
      t.get_urgency_level c = some Urgency.overdue)
  ∧ (t.completed = false → t.is_overdue c = false →
      t.get_urgency_level c =
        some (specUrgencyTable t.priority (t.deadline_date - c.today))) := by
  refine ⟨?_, ?_, ?_⟩
  · intro hc
    simp [Task.get_urgency_level, hk, regularUrgency, hc]
  · intro hc hov
    simp [Task.get_urgency_level, hk, regularUrgency, hc, hov]
  · intro hc hov
    rcases hp with hp | hp | hp <;>
      simp [Task.get_urgency_level, hk, regularUrgency, hc, hov,
        specUrgencyTable, Task.get_days_until_deadline, hp]

def c1Clock : Clock := { today := 100, timeOfDay := 600, instant := 5000 }

def c1Task : Task :=
  { task_id := "t1", title := "report", description := "", deadline_date := 104
    deadline_time := none, priority := 2, category := "work", completed := false
    created_at := 0, completed_at := none, kind := TaskKind.regular }

/-- C1 witness: a pending Regular task of Medium priority due in 4 days is
classified by the spec table (here: `medium`). -/
theorem urgency_table_matches_spec_witness :
    c1Task.get_urgency_level c1Clock =
        some (specUrgencyTable c1Task.priority
          (c1Task.deadline_date - c1Clock.today))
  ∧ specUrgencyTable c1Task.priority (c1Task.deadline_date - c1Clock.today)
      = Urgency.medium :=
  ⟨(urgency_table_matches_spec c1Clock c1Task rfl
      (Or.inr (Or.inl rfl))).2.2 rfl (by decide), by decide⟩

def c2Clock : Clock := { today := 100, timeOfDay := 600, instant := 5000 }

def c2Task : Task :=
  { task_id := "t2", title := "standup", description := "", deadline_date := 100
    deadline_time := none, priority := 1, category := "work", completed := false
    created_at := 0, completed_at := none
    kind := TaskKind.recurring "daily" 1 (some 100) }

/-- C2 (code bug): the `get_urgency_level` of a Recurring task is `none` for
*every* state, because `super()` resolves to the abstract `BaseTask` method
whose body is `pass`; it is never the demoted Regular-task result.  At the
concrete failing input (High priority, due today, pending, not overdue) the
code yields `none` while the demoted table of the spec yields `high`. -/
theorem recurring_urgency_always_none (c : Clock) (t : Task) (rt : String)
    (rc : Int) (od : Option Int) :
    Task.get_urgency_level c { t with kind := TaskKind.recurring rt rc od } = none
  ∧ c2Task.get_urgency_level c2Clock = none
  ∧ regularUrgency c2Clock c2Task = Urgency.critical
  ∧ specRecurringUrgency c2Clock c2Task = Urgency.high := by
  refine ⟨rfl, rfl, by decide, by decide⟩

/-- C3: `is_overdue` is false once completed; for a pending task it holds
iff the deadline date is past, or is today with a set deadline time that
the current time-of-day has passed; a task due today with no deadline time
is never overdue. -/
theorem is_overdue_spec (c : Clock) (t : Task) :
    (t.completed = true → t.is_overdue c = false)
  ∧ (t.completed = false →
      (t.is_overdue c = true ↔
        (t.deadline_date < c.today ∨
          (t.deadline_date = c.today ∧
            ∃ dt, t.deadline_time = some dt ∧ dt < c.timeOfDay))))
  ∧ (t.deadline_date = c.today → t.deadline_time = none →
      t.is_overdue c = false) := by
  refine ⟨?_, ?_, ?_⟩
  · intro hc
    simp [Task.is_overdue, hc]
  · intro hc
    unfold Task.is_overdue
    rw [if_neg (by simp [hc])]
    by_cases h1 : t.deadline_date < c.today
    · simp [h1]
    · rw [if_neg h1]
      by_cases h2 : t.deadline_date = c.today
      · rw [if_pos h2]
        cases hdt : t.deadline_time with
        | none => simp [h1, h2, hdt]
        | some dt => simp [h1, h2, hdt]
      · rw [if_neg h2]
        simp [h1, h2]
  · intro hd hnone
    by_cases hc : t.completed
    · simp [Task.is_overdue, hc]
    · simp [Task.is_overdue, hc, hd, hnone]

def c3Clock : Clock := { today := 50, timeOfDay := 900, instant := 0 }

def c3Task : Task :=
  { task_id := "t3", title := "dentist", description := "", deadline_date := 50
    deadline_time := some 600, priority := 2, category := "health"
    completed := false, created_at := 0, completed_at := none
    kind := TaskKind.regular }

/-- C3 witness: a pending task due today whose deadline time has passed is
overdue. -/
theorem is_overdue_spec_witness : c3Task.is_overdue c3Clock = true :=
  ((is_overdue_spec c3Clock c3Task).2.1 rfl).mpr
    (Or.inr ⟨rfl, 600, rfl, by decide⟩)

/-- C8: `get_next_deadline` adds `interval` days for daily recurrence,
`interval` weeks (7·interval days) for weekly, and the documented 30-day
approximation 30·interval days for monthly. -/
theorem next_deadline_spec (t : Task) (rc : Int) (od : Option Int) :
    (t.kind = TaskKind.recurring "daily" rc od →
      t.get_next_deadline = t.deadline_date + rc)
  ∧ (t.kind = TaskKind.recurring "weekly" rc od →
      t.get_next_deadline = t.deadline_date + 7 * rc)
  ∧ (t.kind = TaskKind.recurring "monthly" rc od →
      t.get_next_deadline = t.deadline_date + 30 * rc) := by
  refine ⟨?_, ?_, ?_⟩ <;> intro hk <;> simp [Task.get_next_deadline, hk]

def c8Task : Task :=
  { task_id := "t8", title := "gym", description := "", deadline_date := 10
    deadline_time := none, priority := 3, category := "health"
    completed := false, created_at := 0, completed_at := none
    kind := TaskKind.recurring "daily" 2 (some 10) }

/-- C8 witness: concrete daily/weekly/monthly recurrences with interval 2
starting from day 10. -/
theorem next_deadline_spec_witness :
    c8Task.get_next_deadline = c8Task.deadline_date + 2
  ∧ ({ c8Task with kind := TaskKind.recurring "weekly" 2 (some 10) } : Task).get_next_deadline
      = ({ c8Task with kind := TaskKind.recurring "weekly" 2 (some 10) } : Task).deadline_date + 7 * 2
  ∧ ({ c8Task with kind := TaskKind.recurring "monthly" 2 (some 10) } : Task).get_next_deadline
      = ({ c8Task with kind := TaskKind.recurring "monthly" 2 (some 10) } : Task).deadline_date + 30 * 2 :=
  ⟨(next_deadline_spec c8Task 2 (some 10)).1 rfl,
   (next_deadline_spec { c8Task with kind := TaskKind.recurring "weekly" 2 (some 10) } 2 (some 10)).2.1 rfl,
   (next_deadline_spec { c8Task with kind := TaskKind.recurring "monthly" 2 (some 10) } 2 (some 10)).2.2 rfl⟩

/-- C10: a `RecurringTask` constructed with `deadline_date = None` gets
today as its `deadline_date` but `None` as `original_deadline`, and its
`to_dict` raises (`none`); with an explicitly provided deadline `to_dict`
succeeds. -/
theorem recurring_to_dict_requires_deadline (fresh_id : String) (c : Clock)
    (title description : String) (dt : Option Nat) (priority : Int)
    (category rt : String) (rc : Int) :
    (mkRecurringTask fresh_id c title description none dt priority category
        rt rc).deadline_date = c.today
  ∧ (mkRecurringTask fresh_id c title description none dt priority category
        rt rc).kind = TaskKind.recurring rt rc none
  ∧ (mkRecurringTask fresh_id c title description none dt priority category
        rt rc).to_dict = none
  ∧ ∀ d : Int,
      ((mkRecurringTask fresh_id c title description (some d) dt priority
        category rt rc).to_dict).isSome = true :=
  ⟨rfl, rfl, rfl, fun _ => rfl⟩

/-- The next occurrence appended by
`TaskManager._handle_recurring_task_completion`, as a function of the
just-completed instance. -/
def spawnedTask (fresh_id : String) (c : Clock) (t : Task) (rt : String)
    (rc : Int) : Task :=
  mkRecurringTask fresh_id c t.title t.description (some t.get_next_deadline)
    t.deadline_time t.priority t.category rt rc

/-- C4: completing a Recurring task marks the found instance completed in
place and appends exactly one fresh pending Recurring task due at
`get_next_deadline()`, copying title, description, priority, category,
deadline time and recurrence settings; the original keeps its deadline and
identity. -/
theorem mark_completed_recurring_spawns_next (fresh_id : String) (c : Clock)
    (tasks : List Task) (id : String) (t : Task) (rt : String) (rc : Int)
    (od : Option Int)
    (hfind : getTaskById tasks id = some t)
    (hkind : t.kind = TaskKind.recurring rt rc od)
    (hcat : pyLower t.category = t.category)
    (hfresh : fresh_id ∉ tasks.map Task.task_id) :
    markCompletedStore fresh_id c tasks id =
      (true, replaceFirstById tasks id (t.mark_completed c) ++
        [spawnedTask fresh_id c t rt rc])
  ∧ (spawnedTask fresh_id c t rt rc).task_id = fresh_id
  ∧ fresh_id ≠ t.task_id
  ∧ (spawnedTask fresh_id c t rt rc).deadline_date = t.get_next_deadline
  ∧ (spawnedTask fresh_id c t rt rc).title = t.title
  ∧ (spawnedTask fresh_id c t rt rc).description = t.description
  ∧ (spawnedTask fresh_id c t rt rc).priority = t.priority
  ∧ (spawnedTask fresh_id c t rt rc).category = t.category
  ∧ (spawnedTask fresh_id c t rt rc).deadline_time = t.deadline_time
  ∧ (spawnedTask fresh_id c t rt rc).kind
      = TaskKind.recurring rt rc (some t.get_next_deadline)
  ∧ (spawnedTask fresh_id c t rt rc).completed = false
  ∧ (spawnedTask fresh_id c t rt rc).completed_at = none
  ∧ (t.mark_completed c).completed = true
  ∧ (t.mark_completed c).completed_at = some c.instant
  ∧ (t.mark_completed c).deadline_date = t.deadline_date
  ∧ (t.mark_completed c).task_id = t.task_id
  ∧ (t.mark_completed c).title = t.title
  ∧ (t.mark_completed c).kind = t.kind := by
  have hmem : t ∈ tasks := List.mem_of_find?_eq_some hfind
  have hidmem : t.task_id ∈ tasks.map Task.task_id :=
    List.mem_map_of_mem Task.task_id hmem
  have hne : fresh_id ≠ t.task_id := fun h => hfresh (h ▸ hidmem)
  refine ⟨?_, rfl, hne, rfl, rfl, rfl, rfl, ?_, rfl, rfl, rfl, rfl, rfl, rfl,
    rfl, rfl, rfl, rfl⟩
  · unfold markCompletedStore handleRecurringTaskCompletion
    rw [hfind]
    show (true, (match (t.mark_completed c).kind with
      | TaskKind.recurring _ _ _ =>
          (match (t.mark_completed c).kind with
            | TaskKind.recurring rt rc _ =>
                replaceFirstById tasks id (t.mark_completed c) ++
                  [mkRecurringTask fresh_id c (t.mark_completed c).title
                    (t.mark_completed c).description
                    (some (t.mark_completed c).get_next_deadline)
                    (t.mark_completed c).deadline_time
                    (t.mark_completed c).priority
                    (t.mark_completed c).category rt rc]
            | TaskKind.regular => replaceFirstById tasks id (t.mark_completed c))
      | TaskKind.regular => replaceFirstById tasks id (t.mark_completed c))) = _
    have hk' : (t.mark_completed c).kind = TaskKind.recurring rt rc od := hkind
    rw [hk']
    rfl
  · show pyLower t.category = t.category
    exact hcat

def c4Clock : Clock := { today := 0, timeOfDay := 0, instant := 77 }

def c4Task : Task :=
  { task_id := "r1", title := "backup", description := "weekly backup"
    deadline_date := 0, deadline_time := none, priority := 2
    category := "work", completed := false, created_at := 0
    completed_at := none, kind := TaskKind.recurring "daily" 3 (some 0) }

/-- C4 witness: completing a daily/interval-3 Recurring task due on day 0
spawns one pending task due on day 3 with a different id. -/
theorem mark_completed_recurring_spawns_next_witness :
    markCompletedStore "r2" c4Clock [c4Task] "r1" =
      (true, replaceFirstById [c4Task] "r1" (c4Task.mark_completed c4Clock) ++
        [spawnedTask "r2" c4Clock c4Task "daily" 3])
  ∧ (spawnedTask "r2" c4Clock c4Task "daily" 3).deadline_date = 3
  ∧ (spawnedTask "r2" c4Clock c4Task "daily" 3).completed = false
  ∧ "r2" ≠ c4Task.task_id := by
  have h := mark_completed_recurring_spawns_next "r2" c4Clock [c4Task] "r1"
    c4Task "daily" 3 (some 0) (by decide) rfl (by decide) (by decide)
  exact ⟨h.1, by decide, by decide, h.2.2.1⟩

/-- The data-model invariant of §3: `completed_at` is set iff `completed`
is true. -/
def completedInvariant (t : Task) : Prop :=
  t.completed_at.isSome = t.completed

instance (t : Task) : Decidable (completedInvariant t) :=
  inferInstanceAs (Decidable (_ = _))

/-- Whether an `update_task` field write touches the completion state. -/
def touchesCompletion (u : FieldUpdate) : Bool :=
  match u with
  | FieldUpdate.set_completed _ => true
  | FieldUpdate.set_completed_at _ => true
  | _ => false

theorem applyFieldUpdate_preserves_completedInvariant (t : Task)
    (u : FieldUpdate) (hu : touchesCompletion u = false)
    (ht : completedInvariant t) :
    completedInvariant (applyFieldUpdate t u) := by
  cases u <;> first
    | exact ht
    | simp [touchesCompletion] at hu

theorem foldl_applyFieldUpdate_preserves_completedInvariant
    (updates : List FieldUpdate) (t : Task)
    (hu : ∀ u ∈ updates, touchesCompletion u = false)
    (ht : completedInvariant t) :
    completedInvariant (updates.foldl applyFieldUpdate t) := by
  induction updates generalizing t with
  | nil => exact ht
  | cons u us ih =>
    simp only [List.foldl_cons]
    exact ih _ (fun v hv => hu v (List.mem_cons_of_mem _ hv))
      (applyFieldUpdate_preserves_completedInvariant t u
        (hu u (List.mem_cons_self _ _)) ht)

theorem mem_replaceFirstById {tasks : List Task} {id : String} {t' x : Task}
    (hx : x ∈ replaceFirstById tasks id t') : x ∈ tasks ∨ x = t' := by
  induction tasks with
  | nil => simp [replaceFirstById] at hx
  | cons y ys ih =>
    unfold replaceFirstById at hx
    by_cases h : (y.task_id == id) = true
    · rw [if_pos h] at hx
      rcases List.mem_cons.mp hx with h1 | h1
      · exact Or.inr h1
      · exact Or.inl (List.mem_cons_of_mem _ h1)
    · rw [if_neg h] at hx
      rcases List.mem_cons.mp hx with h1 | h1
      · exact Or.inl (h1 ▸ List.mem_cons_self _ _)
      · rcases ih h1 with h2 | h2
        · exact Or.inl (List.mem_cons_of_mem _ h2)
        · exact Or.inr h2

theorem mem_eraseFirstById {tasks : List Task} {id : String} {x : Task}
    (hx : x ∈ eraseFirstById tasks id) : x ∈ tasks := by
  induction tasks with
  | nil => simp [eraseFirstById] at hx
  | cons y ys ih =>
    unfold eraseFirstById at hx
    by_cases h : (y.task_id == id) = true
    · rw [if_pos h] at hx
      exact List.mem_cons_of_mem _ hx
    · rw [if_neg h] at hx
      rcases List.mem_cons.mp hx with h1 | h1
      · exact h1 ▸ List.mem_cons_self _ _
      · exact List.mem_cons_of_mem _ (ih h1)

def c5Task : Task :=
  { task_id := "u1", title := "essay", description := "", deadline_date := 9
    deadline_time := none, priority := 1, category := "study"
    completed := false, created_at := 0, completed_at := none
    kind := TaskKind.regular }

/-- C5 counterexample: `update_task` writes fields with raw `setattr`, so
updating `completed` to true leaves `completed_at = None`, violating the
"`completed_at` is set iff `completed`" invariant claimed to hold after
every store operation. -/
theorem update_task_breaks_completed_invariant :
    (updateTaskStore [c5Task] "u1" [FieldUpdate.set_completed true]).1 = true
  ∧ ((updateTaskStore [c5Task] "u1" [FieldUpdate.set_completed true]).2.all
      (fun t => t.completed_at.isSome == t.completed)) = false := by
  exact ⟨by decide, by decide⟩

/-- C5 amended: the invariant "`completed_at` is set iff `completed`" holds
at construction, after the task-level `mark_completed`, after
`reset_for_next_cycle`, and is preserved by the store operations `add`,
`mark_completed` (including the Recurring respawn), `delete` and `cleanup`;
`update_task` preserves it only when no update touches the
`completed`/`completed_at` fields (an update writing either can break it). -/
theorem completed_invariant_preserved :
    (∀ fresh_id c title description dd dt p cat,
      completedInvariant (mkRegularTask fresh_id c title description dd dt p cat))
  ∧ (∀ fresh_id c title description dd dt p cat rt rc,
      completedInvariant
        (mkRecurringTask fresh_id c title description dd dt p cat rt rc))
  ∧ (∀ (c : Clock) (t : Task), completedInvariant (t.mark_completed c))
  ∧ (∀ t : Task, completedInvariant t.reset_for_next_cycle)
  ∧ (∀ fresh_id c title description dd dt p cat tt rt rc tasks,
      (∀ t ∈ tasks, completedInvariant t) →
      ∀ t ∈ addTaskStore fresh_id c title description dd dt p cat tt rt rc tasks,
        completedInvariant t)
  ∧ (∀ fresh_id c tasks id,
      (∀ t ∈ tasks, completedInvariant t) →
      ∀ t ∈ (markCompletedStore fresh_id c tasks id).2, completedInvariant t)
  ∧ (∀ tasks id,
      (∀ t ∈ tasks, completedInvariant t) →
      ∀ t ∈ (deleteTaskStore tasks id).2, completedInvariant t)
  ∧ (∀ c days_old tasks,
      (∀ t ∈ tasks, completedInvariant t) →
      ∀ t ∈ (cleanupCompletedTasks c days_old tasks).2, completedInvariant t)
  ∧ (∀ tasks id updates,
      (∀ t ∈ tasks, completedInvariant t) →
      (∀ u ∈ updates, touchesCompletion u = false) →
      ∀ t ∈ (updateTaskStore tasks id updates).2, completedInvariant t) := by
  refine ⟨fun _ _ _ _ _ _ _ _ => rfl, fun _ _ _ _ _ _ _ _ _ _ => rfl,
    fun _ _ => rfl, fun _ => rfl, ?_, ?_, ?_, ?_, ?_⟩
  · intro fresh_id c title description dd dt p cat tt rt rc tasks hall t ht
    unfold addTaskStore at ht
    by_cases h : (tt == "recurring") = true <;>
      [rw [if_pos h] at ht; rw [if_neg h] at ht] <;>
      rcases List.mem_append.mp ht with h1 | h1
    · exact hall t h1
    · rw [List.mem_singleton.mp h1]; rfl
    · exact hall t h1
    · rw [List.mem_singleton.mp h1]; rfl
  · intro fresh_id c tasks id hall t ht
    unfold markCompletedStore at ht
    cases hfind : getTaskById tasks id with
    | none => rw [hfind] at ht; exact hall t ht
    | some t0 =>
      rw [hfind] at ht
      dsimp only at ht
      have hinv0 : completedInvariant (t0.mark_completed c) := rfl
      cases hk : t0.kind with
      | regular =>
        have hk' : (t0.mark_completed c).kind = TaskKind.regular := hk
        rw [hk'] at ht
        rcases mem_replaceFirstById ht with h1 | h1
        · exact hall t h1
        · exact h1 ▸ hinv0
      | recurring rt rc od =>
        have hk' : (t0.mark_completed c).kind = TaskKind.recurring rt rc od := hk
        rw [hk'] at ht
        unfold handleRecurringTaskCompletion at ht
        rw [hk'] at ht
        rcases List.mem_append.mp ht with h1 | h1
        · rcases mem_replaceFirstById h1 with h2 | h2
          · exact hall t h2
          · exact h2 ▸ hinv0
        · rw [List.mem_singleton.mp h1]; rfl
  · intro tasks id hall t ht
    unfold deleteTaskStore at ht
    cases hfind : getTaskById tasks id with
    | none => rw [hfind] at ht; exact hall t ht
    | some t0 =>
      rw [hfind] at ht
      exact hall t (mem_eraseFirstById ht)
  · intro c days_old tasks hall t ht
    unfold cleanupCompletedTasks at ht
    exact hall t (List.mem_of_mem_filter ht)
  · intro tasks id updates hall hupd t ht
    unfold updateTaskStore at ht
    cases hfind : getTaskById tasks id with
    | none => rw [hfind] at ht; exact hall t ht
    | some t0 =>
      rw [hfind] at ht
      rcases mem_replaceFirstById ht with h1 | h1
      · exact hall t h1
      · exact h1 ▸ foldl_applyFieldUpdate_preserves_completedInvariant
          updates t0 hupd (hall t0 (List.mem_of_find?_eq_some hfind))

/-- C5 amended witness: an `update_task` that only renames the title keeps
the invariant on the updated store element. -/
theorem completed_invariant_preserved_witness :
    completedInvariant ({ c5Task with title := "thesis" }) :=
  completed_invariant_preserved.2.2.2.2.2.2.2.2 [c5Task] "u1"
    [FieldUpdate.set_title "thesis"] (by decide) (by decide)
    { c5Task with title := "thesis" } (by decide)

/-- C9: `get_statistics` on the empty store yields a completion rate of 0
with no division, zero counts for all three priority keys and an empty
category map; whenever it returns a result with `total > 0`, the completion
rate is `completed / total * 100`. -/
theorem statistics_spec :
    (∀ c : Clock, getStatistics c [] = some
      { total := 0, completed := 0, pending := 0, overdue := 0
        completion_rate := 0, by_category := []
        by_priority_1 := 0, by_priority_2 := 0, by_priority_3 := 0 })
  ∧ (∀ (c : Clock) (tasks : List Task) (s : Stats),
      getStatistics c tasks = some s → 0 < s.total →
      s.completion_rate = (s.completed : Rat) / (s.total : Rat) * 100) := by
  constructor
  · intro _; rfl
  · intro c tasks s hs htot
    unfold getStatistics at hs
    by_cases hall : (tasks.all fun t =>
        t.priority == 1 || t.priority == 2 || t.priority == 3) = true
    · rw [if_pos hall, Option.some.injEq] at hs
      subst hs
      dsimp only at htot ⊢
      rw [if_pos htot]
    · rw [if_neg hall] at hs
      cases hs

def c9Clock : Clock := { today := 30, timeOfDay := 0, instant := 40 }

def c9Task : Task :=
  { task_id := "s1", title := "quiz", description := "", deadline_date := 29
    deadline_time := none, priority := 2, category := "study"
    completed := true, created_at := 0, completed_at := some 35
    kind := TaskKind.regular }

def c9Stats : Stats :=
  { total := 1, completed := 1, pending := 0, overdue := 0
    completion_rate := ((1 : Nat) : Rat) / ((1 : Nat) : Rat) * 100
    by_category := [("study", 1)]
    by_priority_1 := 0, by_priority_2 := 1, by_priority_3 := 0 }

/-- C9 witness: a one-task store with its single task completed has a
completion rate of `1 / 1 * 100 = 100`. -/
theorem statistics_spec_witness :
    c9Stats.completion_rate = (c9Stats.completed : Rat) / (c9Stats.total : Rat) * 100 :=
  statistics_spec.2 c9Clock [c9Task] c9Stats rfl (by decide)

theorem mem_of_mem_dedupById {l : List Task} {seen : List String} {x : Task}
    (hx : x ∈ dedupById l seen) : x ∈ l := by
  induction l generalizing seen with
  | nil => simp [dedupById] at hx
  | cons y ys ih =>
    unfold dedupById at hx
    by_cases h : y.task_id ∈ seen
    · rw [if_pos h] at hx
      exact List.mem_cons_of_mem _ (ih hx)
    · rw [if_neg h] at hx
      rcases List.mem_cons.mp hx with h1 | h1
      · exact h1 ▸ List.mem_cons_self _ _
      · exact List.mem_cons_of_mem _ (ih h1)

theorem dedupById_nodup_aux (l : List Task) (seen : List String) :
    ((dedupById l seen).map Task.task_id).Nodup ∧
      ∀ id ∈ (dedupById l seen).map Task.task_id, id ∉ seen := by
  induction l generalizing seen with
  | nil => simp [dedupById]
  | cons y ys ih =>
    unfold dedupById
    by_cases h : y.task_id ∈ seen
    · rw [if_pos h]; exact ih seen
    · rw [if_neg h]
      obtain ⟨ihn, ihs⟩ := ih (y.task_id :: seen)
      refine ⟨?_, ?_⟩
      · simp only [List.map_cons, List.nodup_cons]
        exact ⟨fun hmem => (ihs y.task_id hmem) (List.mem_cons_self _ _), ihn⟩
      · intro id hid
        simp only [List.map_cons, List.mem_cons] at hid
        rcases hid with h1 | h1
        · exact h1 ▸ h
        · exact fun hs => (ihs id h1) (List.mem_cons_of_mem _ hs)

theorem task_id_mem_dedupById (l : List Task) (seen : List String) :
    ∀ x ∈ l, x.task_id ∈ seen ∨
      x.task_id ∈ (dedupById l seen).map Task.task_id := by
  induction l generalizing seen with
  | nil => intro x hx; cases hx
  | cons y ys ih =>
    intro x hx
    unfold dedupById
    by_cases h : y.task_id ∈ seen
    · rw [if_pos h]
      rcases List.mem_cons.mp hx with h1 | h1
      · exact Or.inl (h1 ▸ h)
      · exact ih seen x h1
    · rw [if_neg h]
      rcases List.mem_cons.mp hx with h1 | h1
      · exact Or.inr (by simp [h1])
      · rcases ih (y.task_id :: seen) x h1 with h2 | h2
        · rcases List.mem_cons.mp h2 with h3 | h3
          · exact Or.inr (by simp [h3])
          · exact Or.inl h3
        · exact Or.inr (List.mem_cons_of_mem _ h2)

/-- C6: every urgent reminder is a store task that is pending-and-due-today
or overdue; the result has no repeated id; it is sorted ascending by the
lexicographic `(deadline_date, priority)` key (priority 1 = High first);
and every store task qualifying by either path contributes its id. -/
theorem urgent_reminders_spec (c : Clock) (tasks : List Task) :
    (∀ t ∈ getUrgentReminders c tasks,
        t ∈ tasks ∧
          ((t.completed = false ∧ t.deadline_date = c.today) ∨
            t.is_overdue c = true))
  ∧ ((getUrgentReminders c tasks).map Task.task_id).Nodup
  ∧ List.Sorted urgentLe (getUrgentReminders c tasks)
  ∧ (∀ t ∈ tasks,
        ((t.completed = false ∧ t.deadline_date = c.today) ∨
          t.is_overdue c = true) →
        t.task_id ∈ (getUrgentReminders c tasks).map Task.task_id) := by
  have hdef : getUrgentReminders c tasks =
      List.insertionSort urgentLe
        (dedupById
          ((getPendingTasks tasks).filter (fun t => t.deadline_date == c.today)
            ++ getOverdueTasks c tasks) []) := rfl
  have hperm :
      (List.insertionSort urgentLe
        (dedupById
          ((getPendingTasks tasks).filter (fun t => t.deadline_date == c.today)
            ++ getOverdueTasks c tasks) [])).Perm
        (dedupById
          ((getPendingTasks tasks).filter (fun t => t.deadline_date == c.today)
            ++ getOverdueTasks c tasks) []) :=
    List.perm_insertionSort urgentLe _
  refine ⟨?_, ?_, ?_, ?_⟩
  · intro t ht
    rw [hdef, List.mem_insertionSort] at ht
    have ht2 := mem_of_mem_dedupById ht
    rcases List.mem_append.mp ht2 with h1 | h1
    · rw [List.mem_filter] at h1
      obtain ⟨h2, h3⟩ := h1
      rw [getPendingTasks, List.mem_filter] at h2
      obtain ⟨h4, h5⟩ := h2
      refine ⟨h4, Or.inl ⟨?_, ?_⟩⟩
      · simpa using h5
      · simpa using h3
    · rw [getOverdueTasks, List.mem_filter] at h1
      exact ⟨h1.1, Or.inr h1.2⟩
  · rw [hdef]
    exact ((hperm.map Task.task_id).nodup_iff).mpr (dedupById_nodup_aux _ []).1
  · rw [hdef]
    exact List.sorted_insertionSort urgentLe _
  · intro t ht hq
    rw [hdef]
    have hmemL : t ∈
        ((getPendingTasks tasks).filter (fun t => t.deadline_date == c.today)
          ++ getOverdueTasks c tasks) := by
      rcases hq with ⟨h1, h2⟩ | h1
      · refine List.mem_append.mpr (Or.inl ?_)
        rw [List.mem_filter]
        refine ⟨?_, by simp [h2]⟩
        rw [getPendingTasks, List.mem_filter]
        exact ⟨ht, by simp [h1]⟩
      · exact List.mem_append.mpr (Or.inr (by rw [getOverdueTasks, List.mem_filter]; exact ⟨ht, h1⟩))
    have := task_id_mem_dedupById _ [] t hmemL
    rcases this with h | h
    · cases h
    · exact ((hperm.map Task.task_id).mem_iff).mpr h

def c6Clock : Clock := { today := 20, timeOfDay := 500, instant := 0 }

def c6Task : Task :=
  { task_id := "q1", title := "exam", description := "", deadline_date := 20
    deadline_time := some 300, priority := 1, category := "study"
    completed := false, created_at := 0, completed_at := none
    kind := TaskKind.regular }

/-- C6 witness: a pending task due today whose time has passed qualifies by
both paths yet contributes its id (exactly once, by the Nodup conjunct). -/
theorem urgent_reminders_spec_witness :
    c6Task.task_id ∈ (getUrgentReminders c6Clock [c6Task]).map Task.task_id :=
  (urgent_reminders_spec c6Clock [c6Task]).2.2.2 c6Task (by decide)
    (Or.inl ⟨rfl, rfl⟩)

/-- C7: the upcoming reminders of the aggregator are exactly the
upcoming tasks of the store (pending, `today ≤ deadline ≤ today + threshold`, sorted by
the `(date, time-or-start-of-day)` key) restricted to deadlines other than
today; in particular no task due today ever appears. -/
theorem upcoming_reminders_spec (c : Clock) (threshold : Int) (tasks : List Task) :
    getUpcomingReminders c threshold tasks =
      (getUpcomingTasks c threshold tasks).filter
        (fun t => t.deadline_date != c.today)
  ∧ (∀ t, t ∈ getUpcomingTasks c threshold tasks ↔
      (t ∈ tasks ∧ c.today ≤ t.deadline_date ∧
        t.deadline_date ≤ c.today + threshold ∧ t.completed = false))
  ∧ List.Sorted upcomingLe (getUpcomingTasks c threshold tasks)
  ∧ (∀ t, t ∈ getUpcomingReminders c threshold tasks ↔
      (t ∈ tasks ∧ c.today ≤ t.deadline_date ∧
        t.deadline_date ≤ c.today + threshold ∧ t.completed = false ∧
        t.deadline_date ≠ c.today)) := by
  refine ⟨rfl, ?_, ?_, ?_⟩
  · intro t
    unfold getUpcomingTasks
    rw [List.mem_insertionSort, List.mem_filter]
    simp [and_assoc]
  · exact List.sorted_insertionSort upcomingLe _
  · intro t
    unfold getUpcomingReminders getUpcomingTasks
    rw [List.mem_filter, List.mem_insertionSort, List.mem_filter]
    simp [and_assoc]

def c7Clock : Clock := { today := 5, timeOfDay := 0, instant := 0 }

def c7Task : Task :=
  { task_id := "p1", title := "draft", description := "", deadline_date := 6
    deadline_time := none, priority := 2, category := "work"
    completed := false, created_at := 0, completed_at := none
    kind := TaskKind.regular }

/-- C7 witness: a pending task due tomorrow is an upcoming reminder within
threshold 3. -/
theorem upcoming_reminders_spec_witness :
    c7Task ∈ getUpcomingReminders c7Clock 3 [c7Task] :=
  ((upcoming_reminders_spec c7Clock 3 [c7Task]).2.2.2 c7Task).mpr
    ⟨by decide, by decide, by decide, rfl, by decide⟩

end DeadlineReminder
